import Mathlib

/-!
# Orderer seek client: block decoding, seek requests, broadcast and the read loop

A shallow embedding of `server/ote/client.go`.  The Go code talks to three
collaborators whose code is outside the repository: the protobuf and fabric
helpers that unwrap an envelope, the SQL driver, and the gRPC streams.  They
appear here as explicit arguments (`Codec`, `DB`, the stream fields of the two
clients); everything the Go functions do with their answers is spelled out.

Effects are recorded as an ordered list of events together with the way the
call ended (`Res.ok` for a normal return, `Res.panic` for a Go panic).
-/

namespace Ote

/-! ## Go values -/

/-- Raw bytes (`[]byte`); every element is meant to be below 256. -/
abbrev Bytes := List Nat

/-- Status code of an ack (`cb.Status`, an int32 enumeration). -/
abbrev Status := Int

/-- The value `cb.Status_SUCCESS`. -/
def statusSuccess : Status := 200

/-- The value `math.MaxUint64`. -/
def maxUint64 : Nat := 2 ^ 64 - 1

/-- Go `error` values, kept as the expression that built them. -/
inductive GoError where
  /-- an error handed back by a library call -/
  | lib (msg : String)
  /-- the value of `errors.WithMessage(cause, msg)` -/
  | withMessage (cause : GoError) (msg : String)
  /-- the value of `fmt.Errorf(format, status)` -/
  | errorfStatus (format : String) (status : Status)
  deriving DecidableEq, Repr

/-- The value carried by a Go panic. -/
inductive PanicVal where
  /-- runtime error: invalid memory address or nil pointer dereference -/
  | nilDeref
  /-- the call `panic(err)` -/
  | err (e : GoError)
  /-- the call `panic(err.Error())` -/
  | errText (e : GoError)
  /-- the call `panic(fmt.Sprintf(format, err))` -/
  | sprintf (format : String) (e : GoError)
  /-- a panic raised inside a library call -/
  | library (msg : String)
  deriving DecidableEq, Repr

/-- How a Go call ends: a normal return or a panic. -/
inductive Res (α : Type) where
  | ok (a : α)
  | panic (p : PanicVal)
  deriving DecidableEq, Repr

/-- A `time.Time`, kept as the expression that built it: the zero value of a
declared variable, or `time.Unix(sec, nsec)`. -/
inductive Time where
  | zero
  | unix (sec nsec : Int)
  deriving DecidableEq, Repr

/-! ## Messages (protobuf types of the fabric library) -/

structure Envelope where
  payload : Bytes
  signature : Bytes
  deriving DecidableEq, Repr

structure Header where
  channelHeader : Bytes
  signatureHeader : Bytes
  deriving DecidableEq, Repr

structure Payload where
  header : Option Header
  data : Bytes
  deriving DecidableEq, Repr

structure Timestamp where
  seconds : Int
  nanos : Int
  deriving DecidableEq, Repr

structure ChannelHeader where
  timestamp : Option Timestamp
  channelId : String
  txId : String
  deriving DecidableEq, Repr

structure ConfigValue where
  version : Nat
  value : Bytes
  modPolicy : String
  deriving DecidableEq, Repr

structure BlockHeader where
  number : Nat
  previousHash : Bytes
  dataHash : Bytes
  deriving DecidableEq, Repr

structure BlockData where
  data : List Bytes
  deriving DecidableEq, Repr

structure Block where
  header : Option BlockHeader
  data : Option BlockData
  deriving DecidableEq, Repr

/-- Nil-safe getter `(*Timestamp).GetSeconds`. -/
def Timestamp.getSeconds : Option Timestamp → Int
  | none => 0
  | some t => t.seconds

/-- Nil-safe getter `(*Timestamp).GetNanos`. -/
def Timestamp.getNanos : Option Timestamp → Int
  | none => 0
  | some t => t.nanos

/-! ## Collaborators -/

/-- The decoding helpers called by the loop body of `transactionResponse`.
Each field has the shape of the Go call: a possibly nil pointer together with
a possibly nil error.  `getPayload` receives the envelope pointer as is (nil
included) and may therefore panic. -/
structure Codec where
  /-- the call `utils.GetEnvelopeFromBlock(envBytes)` -/
  getEnvelopeFromBlock : Bytes → Option Envelope × Option GoError
  /-- the call `utils.GetPayload(envelope)` -/
  getPayload : Option Envelope → Res (Option Payload × Option GoError)
  /-- the call `utils.UnmarshalChannelHeader(bytes)` -/
  unmarshalChannelHeader : Bytes → Option ChannelHeader × Option GoError
  /-- the call `proto.Unmarshal(bytes, &msg)` into a fresh `cb.ConfigValue` -/
  unmarshalConfigValue : Bytes → ConfigValue × Option GoError

/-- The two prepared statements of `transactionResponse`. -/
inductive Stmt where
  /-- the statement `stmtIns`, prepared from `blockSQL` -/
  | stmtIns
  /-- the statement `stmTx`, prepared from `txSQL` -/
  | stmTx
  deriving DecidableEq, Repr

def blockSQL : String := "INSERT INTO block VALUES(?,?,?,?,?)"

def txSQL : String := "INSERT INTO transaction VALUES(?,?,?,?,?,?,?)"

/-- The two error kinds of `strconv`. -/
inductive NumError where
  | errSyntax
  | errRange
  deriving DecidableEq, Repr

/-- An argument of `Exec` or of a logging call. -/
inductive Arg where
  | uint64 (n : Nat)
  | int (n : Int)
  | str (s : String)
  | time (t : Time)
  | err (e : GoError)
  | numErr (e : NumError)
  deriving DecidableEq, Repr

/-- The SQL database: whether `Prepare` and `Exec` report an error. -/
structure DB where
  prepare : String → Option GoError
  exec : Stmt → List Arg → Option GoError

inductive Level where
  | error
  | warn
  | info
  | debug
  deriving DecidableEq, Repr

/-- What `transactionResponse` does to the outside world, in order. -/
inductive Event where
  | prepare (sql : String)
  | exec (stmt : Stmt) (args : List Arg)
  | close (stmt : Stmt)
  | log (lvl : Level) (text : String) (args : List Arg)
  deriving DecidableEq, Repr

/-! ## Standard-library helpers -/

/-- Digit of `hextable = "0123456789abcdef"` at position `n` (below 16). -/
def hexDigit (n : Nat) : Char :=
  "0123456789abcdef".toList.getD n '0'

/-- The function `hex.EncodeToString`: two digits of `hextable` per byte, the
high nibble first. -/
def encodeToString (src : Bytes) : String :=
  String.mk (src.flatMap fun b => [hexDigit (b % 256 / 16), hexDigit (b % 16)])

/-- The digit loop of `strconv.ParseUint(s, 10, 64)` over the bytes still to
read, with the number accumulated so far. -/
def parseUintLoop : List Nat → Nat → Nat × Option NumError
  | [], n => (n, none)
  | ch :: rest, n =>
    if 48 ≤ ch ∧ ch ≤ 57 then
      if n ≥ maxUint64 / 10 + 1 then (maxUint64, some .errRange)
      else
        let n1 := n * 10 + (ch - 48)
        if n1 > maxUint64 then (maxUint64, some .errRange)
        else parseUintLoop rest n1
    else (0, some .errSyntax)

/-- The call `strconv.ParseUint(string(value), 10, 64)`. -/
def parseUint (s : Bytes) : Nat × Option NumError :=
  match s with
  | [] => (0, some .errSyntax)
  | _ => parseUintLoop s 0

/-! ## transactionResponse -/

/-- The expression `block.Header.Number*uint64(AppConf.TxNumPerBlock)+uint64(i)`
in uint64 arithmetic; `txNumPerBlock` is the value of
`uint64(AppConf.TxNumPerBlock)`. -/
def globalSequenceNumber (txNumPerBlock number i : Nat) : Nat :=
  ((number * txNumPerBlock) % 2 ^ 64 + i % 2 ^ 64) % 2 ^ 64

/-- Lines 121-131 of the loop body: unwrap the envelope down to its channel
header.  Errors are logged and execution goes on with whatever pointer the
helper returned; a nil pointer that is dereferenced panics. -/
def unwrap (c : Codec) (envBytes : Bytes) : List Event × Res (Payload × ChannelHeader) :=
  let r1 := c.getEnvelopeFromBlock envBytes
  let ev1 : List Event :=
    match r1.2 with
    | some e => [.log .error "Error GetEnvelopeFromBlock:" [.err e]]
    | none => []
  match c.getPayload r1.1 with
  | .panic p => (ev1, .panic p)
  | .ok r2 =>
    let ev2 : List Event :=
      match r2.2 with
      | some e => [.log .error "Error GetPayload:" [.err e]]
      | none => []
    match r2.1 with
    | none => (ev1 ++ ev2, .panic .nilDeref)
    | some payload =>
      match payload.header with
      | none => (ev1 ++ ev2, .panic .nilDeref)
      | some header =>
        match (c.unmarshalChannelHeader header.channelHeader).1 with
        | none => (ev1 ++ ev2, .panic .nilDeref)
        | some channelHeader => (ev1 ++ ev2, .ok (payload, channelHeader))

/-- Line 132: `time.Unix(txTimestamp.GetSeconds(), int64(txTimestamp.GetNanos()))`. -/
def txTimeOf (channelHeader : ChannelHeader) : Time :=
  .unix (Timestamp.getSeconds channelHeader.timestamp) (Timestamp.getNanos channelHeader.timestamp)

/-- Lines 134-141: read the payload data as a `ConfigValue` and parse its value
as a decimal number.  Both errors are logged; the parsed number is returned. -/
def parseData (c : Codec) (payload : Payload) : List Event × Nat :=
  let r3 := c.unmarshalConfigValue payload.data
  let ev3 : List Event :=
    match r3.2 with
    | some e => [.log .error "Error proto unmarshal" [.err e]]
    | none => []
  let r4 := parseUint r3.1.value
  let ev4 : List Event :=
    match r4.2 with
    | some e => [.log .error "Error ParseUint:" [.numErr e]]
    | none => []
  (ev3 ++ ev4, r4.1)

/-- The arguments of `stmTx.Exec` on line 144. -/
def txArgs (txNumPerBlock number i : Nat) (channelHeader : ChannelHeader) : List Arg :=
  [.uint64 (globalSequenceNumber txNumPerBlock number i), .str channelHeader.txId,
   .str "", .str "", .str "", .int 0, .time (txTimeOf channelHeader)]

/-- The warning logged when an `Exec` reports an error. -/
def warnOf : Option GoError → List Event
  | some e => [.log .warn "%s" [.err e]]
  | none => []

/-- One iteration of the loop on lines 120-148, for envelope `i`: the events
and either the new value of `txTime` or the panic that ends the call. -/
def envelopeStep (c : Codec) (db : DB) (txNumPerBlock number i : Nat) (envBytes : Bytes) :
    List Event × Res Time :=
  match unwrap c envBytes with
  | (ev, .panic p) => (ev, .panic p)
  | (ev, .ok (payload, channelHeader)) =>
    let r := parseData c payload
    let args := txArgs txNumPerBlock number i channelHeader
    (ev ++ r.1
      ++ [.log .debug "Seek block number:%d, payload:%d" [.uint64 number, .uint64 r.2]]
      ++ [.exec .stmTx args] ++ warnOf (db.exec .stmTx args),
     .ok (txTimeOf channelHeader))

/-- The loop on lines 120-148 over the envelopes still to visit, `i` being the
index of the first of them and `txTime` the current value of the variable. -/
def envelopeLoop (c : Codec) (db : DB) (txNumPerBlock number : Nat) :
    List Bytes → Nat → Time → List Event × Res Time
  | [], _, txTime => ([], .ok txTime)
  | envBytes :: rest, i, _ =>
    match envelopeStep c db txNumPerBlock number i envBytes with
    | (ev, .panic p) => (ev, .panic p)
    | (ev, .ok txTime) =>
      let r := envelopeLoop c db txNumPerBlock number rest (i + 1) txTime
      (ev ++ r.1, r.2)

/-- The arguments of `stmtIns.Exec` on line 150. -/
def blockArgs (header : BlockHeader) (txLen : Nat) (txTime : Time) : List Arg :=
  [.uint64 header.number, .str (encodeToString header.dataHash), .int txLen, .int 0, .time txTime]

/-- The function `transactionResponse(block)`: the events it causes, in order,
and how it ends.  The deferred `Close` calls run on every exit after their
`defer`, the later one first. -/
def transactionResponse (c : Codec) (db : DB) (txNumPerBlock : Nat) (block : Option Block) :
    List Event × Res Unit :=
  match block with
  | none => ([], .panic .nilDeref)
  | some block =>
    match block.header with
    | none => ([], .panic .nilDeref)
    | some header =>
      if header.number = 0 then ([], .ok ())
      else
        match db.prepare blockSQL with
        | some e => ([.prepare blockSQL], .panic (.errText e))
        | none =>
          match db.prepare txSQL with
          | some e => ([.prepare blockSQL, .prepare txSQL, .close .stmtIns], .panic (.errText e))
          | none =>
            match block.data with
            | none =>
              ([.prepare blockSQL, .prepare txSQL, .close .stmTx, .close .stmtIns],
               .panic .nilDeref)
            | some data =>
              let txLen := data.data.length
              match envelopeLoop c db txNumPerBlock header.number data.data 0 .zero with
              | (ev, .panic p) =>
                ([.prepare blockSQL, .prepare txSQL] ++ ev ++ [.close .stmTx, .close .stmtIns],
                 .panic p)
              | (ev, .ok txTime) =>
                let args := blockArgs header txLen txTime
                ([.prepare blockSQL, .prepare txSQL] ++ ev
                  ++ [.exec .stmtIns args] ++ warnOf (db.exec .stmtIns args)
                  ++ [.close .stmTx, .close .stmtIns],
                 .ok ())

/-! ## Signed envelopes, seek requests -/

/-- A seek position (`ab.SeekPosition`). -/
inductive SeekPosition where
  | oldest
  | newest
  | specified (number : Nat)
  deriving DecidableEq, Repr

inductive SeekBehavior where
  | blockUntilReady
  | failIfNotReady
  deriving DecidableEq, Repr

structure SeekInfo where
  start : SeekPosition
  stop : SeekPosition
  behavior : SeekBehavior
  deriving DecidableEq, Repr

inductive HeaderType where
  | message
  | deliverSeekInfo
  deriving DecidableEq, Repr

/-- The message wrapped by an envelope. -/
inductive DataMsg where
  | seekInfo (s : SeekInfo)
  | configValue (v : ConfigValue)
  deriving DecidableEq, Repr

/-- The arguments of `utils.CreateSignedEnvelope` that end up inside the
envelope: header type, channel identifier, message, message version, epoch. -/
structure EnvelopeContent where
  txType : HeaderType
  channelID : String
  dataMsg : DataMsg
  msgVersion : Int
  epoch : Nat
  deriving DecidableEq, Repr

/-- A signed envelope, kept as its content and the signature over it. -/
structure SignedEnvelope where
  content : EnvelopeContent
  signature : Bytes
  deriving DecidableEq, Repr

/-- The local signer (`crypto.LocalSigner`): a signature or an error. -/
structure Signer where
  signContent : EnvelopeContent → Except GoError Bytes

/-- The call `utils.CreateSignedEnvelope(txType, channelID, signer, dataMsg,
msgVersion, epoch)`: the envelope around these arguments, or the error of the
signer. -/
def createSignedEnvelope (txType : HeaderType) (channelID : String) (signer : Signer)
    (dataMsg : DataMsg) (msgVersion : Int) (epoch : Nat) : Except GoError SignedEnvelope :=
  let content : EnvelopeContent := ⟨txType, channelID, dataMsg, msgVersion, epoch⟩
  match signer.signContent content with
  | .error e => .error e
  | .ok sig => .ok ⟨content, sig⟩

/-- The variable `oldest`. -/
def oldest : SeekPosition := .oldest

/-- The variable `newest`. -/
def newest : SeekPosition := .newest

/-- The variable `maxStop`. -/
def maxStop : SeekPosition := .specified maxUint64

/-- A message of the delivery stream (`ab.DeliverResponse`); `unset` is a
response whose `Type` is neither of the two. -/
inductive DeliverResponse where
  | status (code : Status)
  | block (b : Option Block)
  | unset
  deriving DecidableEq, Repr

/-- The deliver client: channel, signer, and the stream, given by what `Send`
answers and by what `Recv` yields (the messages in order, then the error). -/
structure DeliverClient where
  chanID : String
  signer : Signer
  send : SignedEnvelope → Option GoError
  incoming : List DeliverResponse
  recvErr : GoError

/-- The method `seekHelper`: the signed seek envelope, or a panic when the
envelope cannot be created.  As in the source the envelope is addressed to
`d.chanID`; the parameter `chanID` is not used. -/
def DeliverClient.seekHelper (d : DeliverClient) (_chanID : String)
    (start stop : SeekPosition) : Res SignedEnvelope :=
  let seekInfo : SeekInfo := ⟨start, stop, .blockUntilReady⟩
  match createSignedEnvelope .deliverSeekInfo d.chanID d.signer (.seekInfo seekInfo) 0 0 with
  | .error e => .panic (.err e)
  | .ok env => .ok env

/-- The call `d.client.Send(d.seekHelper(...))`: the envelopes given to `Send`
and the error returned, or the panic of `seekHelper`. -/
def DeliverClient.sendSeek (d : DeliverClient) (r : Res SignedEnvelope) :
    List SignedEnvelope × Res (Option GoError) :=
  match r with
  | .panic p => ([], .panic p)
  | .ok env => ([env], .ok (d.send env))

/-- The method `seekOldest`. -/
def DeliverClient.seekOldest (d : DeliverClient) : List SignedEnvelope × Res (Option GoError) :=
  d.sendSeek (d.seekHelper d.chanID oldest maxStop)

/-- The method `seekNewest`. -/
def DeliverClient.seekNewest (d : DeliverClient) : List SignedEnvelope × Res (Option GoError) :=
  d.sendSeek (d.seekHelper d.chanID newest maxStop)

/-- The method `seekSpecified`. -/
def DeliverClient.seekSpecified (d : DeliverClient) (blockNumber : Nat) :
    List SignedEnvelope × Res (Option GoError) :=
  let specific : SeekPosition := .specified blockNumber
  d.sendSeek (d.seekHelper d.chanID specific specific)

/-! ## readUntilClose -/

/-- What the receive loop does, in order: a log line, or the start of a
goroutine running `transactionResponse` on a block. -/
inductive LoopEvent where
  | log (lvl : Level) (text : String) (code : Status)
  | goTransactionResponse (b : Option Block)
  deriving DecidableEq, Repr

/-- How a call of `readUntilClose` ends. -/
inductive LoopEnd where
  /-- a normal return to the caller -/
  | returned
  /-- a panic raised by the loop itself, which unwinds into the caller -/
  | panicked (p : PanicVal)
  /-- a panic inside a goroutine started by the loop: `transactionResponse` has
  no `recover`, so the panic ends the whole process -/
  | processDown (p : PanicVal)
  deriving DecidableEq, Repr

/-- The body of the `switch` in `readUntilClose` for one received message. -/
def handleMessage : DeliverResponse → List LoopEvent
  | .status code => [.log .info "Got DeliverResponse_Status: %v" code]
  | .block b => [.goTransactionResponse b]
  | .unset => []

/-- The panic, if any, of the goroutine that the loop starts for a message:
the one of `transactionResponse` on the block of a Block message. -/
def goroutinePanic (c : Codec) (db : DB) (txNumPerBlock : Nat) : DeliverResponse → Option PanicVal
  | .block b =>
    match (transactionResponse c db txNumPerBlock b).2 with
    | .panic p => some p
    | .ok _ => none
  | _ => none

/-- The goroutines in flight that are going to panic: for each of them the
number of further loop iterations that start before it does, and its panic. -/
abbrev Pending := List (Nat × PanicVal)

/-- The panic of the first goroutine in flight whose time has come. -/
def firstDue : Pending → Option PanicVal
  | [] => none
  | (0, p) :: _ => some p
  | (_ + 1, _) :: rest => firstDue rest

/-- One loop iteration has started: every goroutine in flight is one
iteration closer to its panic. -/
def tick (pending : Pending) : Pending :=
  pending.map fun x => (x.1 - 1, x.2)

/-- The entry for the goroutine started for a message, if it is going to
panic, `delay` iterations later. -/
def spawned (c : Codec) (db : DB) (txNumPerBlock : Nat) (delay : Nat) (msg : DeliverResponse) :
    Pending :=
  match goroutinePanic c db txNumPerBlock msg with
  | some p => [(delay, p)]
  | none => []

/-- The loop of `readUntilClose` over the messages `Recv` still yields before
it yields the error `err`; `k` is the index of the next message.  The
goroutines run concurrently with the loop: `delay k` says how many further
iterations start before the goroutine started for message `k` panics (if it
does), and `pending` holds the goroutines in flight.  A goroutine panic ends
the process before the next `Recv`; otherwise the loop goes on, and panics
itself on the receive error. -/
def readLoop (c : Codec) (db : DB) (txNumPerBlock : Nat) (delay : Nat → Nat) :
    List DeliverResponse → GoError → Nat → Pending → List LoopEvent × LoopEnd
  | [], err, _, pending =>
    match firstDue pending with
    | some p => ([], .processDown p)
    | none => ([], .panicked (.sprintf "Consumer recv error: %v" err))
  | msg :: rest, err, k, pending =>
    match firstDue pending with
    | some p => ([], .processDown p)
    | none =>
      let r := readLoop c db txNumPerBlock delay rest err (k + 1)
        (tick pending ++ spawned c db txNumPerBlock (delay k) msg)
      (handleMessage msg ++ r.1, r.2)

/-- The method `readUntilClose`, which has no result: the events of the loop
and how the call ends, for the given codec, database, multiplier and timing of
the goroutines. -/
def DeliverClient.readUntilClose (d : DeliverClient) (c : Codec) (db : DB)
    (txNumPerBlock : Nat) (delay : Nat → Nat) : List LoopEvent × LoopEnd :=
  readLoop c db txNumPerBlock delay d.incoming d.recvErr 0 []

/-! ## broadcast -/

/-- An ack of the broadcast stream (`ab.BroadcastResponse`). -/
structure BroadcastResponse where
  status : Status
  deriving DecidableEq, Repr

/-- The broadcast client: channel, signer, and the stream, given by what `Send`
answers and by what the next `Recv` yields. -/
structure BroadcastClient where
  clientId : Nat
  chanID : String
  signer : Signer
  send : SignedEnvelope → Option GoError
  recv : Except GoError BroadcastResponse

/-- The method `getAck`. -/
def BroadcastClient.getAck (b : BroadcastClient) : Option GoError :=
  match b.recv with
  | .error err => some err
  | .ok msg =>
    if msg.status ≠ statusSuccess then
      some (.errorfStatus "catch unexpected status: %v" msg.status)
    else none

/-- The steps of the goroutine that runs `broadcast`, in order. -/
inductive Step where
  /-- the call `b.mutex.Lock()` -/
  | lock
  /-- the statement `go func()` whose body sends `b.getAck()` on `done` -/
  | goGetAck
  /-- the call `b.client.Send(env)` -/
  | send (env : SignedEnvelope)
  /-- the receive `<-done`, which waits for the goroutine of `getAck` -/
  | recvDone
  /-- the deferred `b.mutex.Unlock()` -/
  | unlock
  deriving DecidableEq, Repr

/-- The method `broadcast`: the steps of the calling goroutine and the error
returned (`none` for nil). -/
def BroadcastClient.broadcast (b : BroadcastClient) (transaction : Bytes) :
    List Step × Option GoError :=
  match createSignedEnvelope .message b.chanID b.signer
      (.configValue ⟨0, transaction, ""⟩) 0 0 with
  | .error err => ([], some err)
  | .ok env =>
    match b.send env with
    | some err =>
      ([.lock, .goGetAck, .send env, .unlock], some (.withMessage err "could not send"))
    | none => ([.lock, .goGetAck, .send env, .recvDone, .unlock], b.getAck)

/-! ## Observations on the events -/

/-- Whether the event is a transaction insert (`stmTx.Exec`). -/
def isTxInsert : Event → Bool
  | .exec .stmTx _ => true
  | _ => false

/-- Whether the event is a block-summary insert (`stmtIns.Exec`). -/
def isBlockInsert : Event → Bool
  | .exec .stmtIns _ => true
  | _ => false

/-- The transaction inserts among the events, in order. -/
def txInserts (evs : List Event) : List Event := evs.filter isTxInsert

/-- The block-summary inserts among the events, in order. -/
def blockInserts (evs : List Event) : List Event := evs.filter isBlockInsert

/-- The first argument (the sequence number) of a transaction insert. -/
def seqOf : Event → Option Nat
  | .exec .stmTx (.uint64 n :: _) => some n
  | _ => none

/-- The sequence numbers of the transaction inserts, in order. -/
def txSeqs (evs : List Event) : List Nat := evs.filterMap seqOf

/-- Whether the loop body gets as far as `stmTx.Exec` for this envelope, that
is, whether `unwrap` ends without a panic. -/
def reachesInsert (c : Codec) (envBytes : Bytes) : Bool :=
  match (unwrap c envBytes).2 with
  | .ok _ => true
  | .panic _ => false

/-- The value the loop body assigns to `txTime` for this envelope, if it gets
that far. -/
def envelopeTime (c : Codec) (envBytes : Bytes) : Option Time :=
  match (unwrap c envBytes).2 with
  | .ok r => some (txTimeOf r.2)
  | .panic _ => none

/-- The number of envelopes the loop visits before the first one that panics. -/
def reached (c : Codec) (envelopes : List Bytes) : Nat :=
  (envelopes.takeWhile (reachesInsert c)).length

/-- Decode failure of one envelope in the sense of the specification (invalid
envelope or header, invalid payload, non-numeric transaction identifier), read
off the decoding calls of the loop body: one of them reports an error, returns
nil, or panics. -/
def failsToDecode (c : Codec) (envBytes : Bytes) : Bool :=
  let r1 := c.getEnvelopeFromBlock envBytes
  r1.2.isSome ||
  match c.getPayload r1.1 with
  | .panic _ => true
  | .ok r2 =>
    r2.2.isSome ||
    match r2.1 with
    | none => true
    | some payload =>
      match payload.header with
      | none => true
      | some header =>
        let r := c.unmarshalChannelHeader header.channelHeader
        r.2.isSome || r.1.isNone ||
        (c.unmarshalConfigValue payload.data).2.isSome ||
        (parseUint (c.unmarshalConfigValue payload.data).1.value).2.isSome

/-- The number `j` of envelopes that fail to decode. -/
def failedCount (c : Codec) (envelopes : List Bytes) : Nat :=
  (envelopes.filter (failsToDecode c)).length

/-- The timestamp the specification asks for in the block summary: that of the
last envelope that decodes without failure, the zero time if there is none. -/
def lastDecodedTime (c : Codec) (envelopes : List Bytes) : Time :=
  match ((envelopes.filter fun e => !failsToDecode c e).filterMap (envelopeTime c)).getLast? with
  | some t => t
  | none => .zero

/-- The timestamp of the last envelope, the zero time if there is none. -/
def lastEnvelopeTime (c : Codec) (envelopes : List Bytes) : Time :=
  match envelopes.getLast? with
  | none => .zero
  | some e =>
    match envelopeTime c e with
    | some t => t
    | none => .zero

/-! ## Sample inputs

Envelopes in protobuf wire format, and a decoder for exactly the fragment of
the format they use (one-byte tags and lengths, fields in order).  Bytes
outside the fragment are reported as an error, with a nil result. -/

/-- A length-delimited field: tag byte, length byte, body. -/
def lenDelim (tag : Nat) (body : Bytes) : Bytes := tag :: body.length :: body

/-- The wire bytes of an envelope whose channel header has the timestamp `sec`
seconds and transaction identifier `txId`, and whose data is a `ConfigValue`
with the given value. -/
def sampleEnvelope (sec : Nat) (txId value : Bytes) : Bytes :=
  let channelHeader := lenDelim 26 [8, sec] ++ lenDelim 42 txId
  let header := lenDelim 10 channelHeader
  let payload := lenDelim 10 header ++ lenDelim 18 (lenDelim 18 value)
  lenDelim 10 payload

/-- Read one length-delimited field with the given tag off the front. -/
def readField (tag : Nat) : Bytes → Option (Bytes × Bytes)
  | t :: n :: rest => if t = tag ∧ n ≤ rest.length then some (rest.take n, rest.drop n) else none
  | _ => none

/-- Decoder for the fragment. -/
def sampleCodec : Codec where
  getEnvelopeFromBlock bs :=
    match readField 10 bs with
    | some (p, []) => (some ⟨p, []⟩, none)
    | _ => (none, some (.lib "error unmarshaling Envelope"))
  getPayload e :=
    match e with
    | none => .panic .nilDeref
    | some env =>
      match readField 10 env.payload with
      | some (h, rest) =>
        match readField 10 h, readField 18 rest with
        | some (ch, []), some (d, []) => .ok (some ⟨some ⟨ch, []⟩, d⟩, none)
        | _, _ => .ok (some ⟨none, []⟩, some (.lib "error unmarshaling Payload"))
      | none => .ok (some ⟨none, []⟩, some (.lib "error unmarshaling Payload"))
  unmarshalChannelHeader bs :=
    match bs with
    | 26 :: 2 :: 8 :: sec :: rest =>
      match readField 42 rest with
      | some (txId, []) => (some ⟨some ⟨sec, 0⟩, "", String.mk (txId.map Char.ofNat)⟩, none)
      | _ => (none, some (.lib "error unmarshaling ChannelHeader"))
    | _ => (none, some (.lib "error unmarshaling ChannelHeader"))
  unmarshalConfigValue bs :=
    match readField 18 bs with
    | some (v, []) => (⟨0, v, ""⟩, none)
    | _ => (⟨0, [], ""⟩, some (.lib "proto: cannot parse"))

/-- A database on which every `Prepare` and `Exec` succeeds. -/
def okDB : DB := ⟨fun _ => none, fun _ _ => none⟩

/-- An envelope with timestamp 5, identifier "t0" and the numeric value "7". -/
def envNumeric : Bytes := sampleEnvelope 5 [116, 48] [55]

/-- An envelope with timestamp 9, identifier "t1" and the value "ab", which is
not a decimal number. -/
def envNonNumeric : Bytes := sampleEnvelope 9 [116, 49] [97, 98]

/-- A block with the given number and envelopes, and data hash `de ad`. -/
def sampleBlock (number : Nat) (envelopes : List Bytes) : Option Block :=
  some ⟨some ⟨number, [], [222, 173]⟩, some ⟨envelopes⟩⟩

/-! ## Lemmas on the loop -/

/-- Whether the event is a log line. -/
def isLog : Event → Bool
  | .log _ _ _ => true
  | _ => false

theorem filter_isTxInsert_logs (evs : List Event) (h : ∀ ev ∈ evs, isLog ev = true) :
    txInserts evs = [] := by
  unfold txInserts
  rw [List.filter_eq_nil_iff]
  intro ev hev
  have := h ev hev
  cases ev <;> simp_all [isLog, isTxInsert]

theorem filter_isBlockInsert_logs (evs : List Event) (h : ∀ ev ∈ evs, isLog ev = true) :
    blockInserts evs = [] := by
  unfold blockInserts
  rw [List.filter_eq_nil_iff]
  intro ev hev
  have := h ev hev
  cases ev <;> simp_all [isLog, isBlockInsert]

theorem txSeqs_logs (evs : List Event) (h : ∀ ev ∈ evs, isLog ev = true) :
    txSeqs evs = [] := by
  unfold txSeqs
  rw [List.filterMap_eq_nil_iff]
  intro ev hev
  have := h ev hev
  cases ev <;> simp_all [isLog, seqOf]

theorem unwrap_logs (c : Codec) (e : Bytes) : ∀ ev ∈ (unwrap c e).1, isLog ev = true := by
  intro ev
  unfold unwrap
  dsimp only
  repeat' split
  all_goals simp
  all_goals (rintro (rfl | rfl) <;> rfl)

theorem parseData_logs (c : Codec) (p : Payload) : ∀ ev ∈ (parseData c p).1, isLog ev = true := by
  intro ev
  unfold parseData
  dsimp only
  repeat' split
  all_goals simp
  all_goals (rintro (rfl | rfl) <;> rfl)

theorem warnOf_logs (o : Option GoError) : ∀ ev ∈ warnOf o, isLog ev = true := by
  intro ev
  cases o <;> simp [warnOf]
  rintro rfl
  rfl

theorem reachesInsert_iff (c : Codec) (e : Bytes) :
    reachesInsert c e = true ↔ ∃ r, (unwrap c e).2 = .ok r := by
  unfold reachesInsert
  cases (unwrap c e).2 <;> simp

/-- The events and result of one iteration whose envelope unwraps. -/
theorem envelopeStep_ok (c : Codec) (db : DB) (m n i : Nat) (e : Bytes)
    (r : Payload × ChannelHeader) (h : (unwrap c e).2 = .ok r) :
    envelopeStep c db m n i e =
      ((unwrap c e).1 ++ (parseData c r.1).1
        ++ [.log .debug "Seek block number:%d, payload:%d" [.uint64 n, .uint64 (parseData c r.1).2]]
        ++ [.exec .stmTx (txArgs m n i r.2)] ++ warnOf (db.exec .stmTx (txArgs m n i r.2)),
       .ok (txTimeOf r.2)) := by
  unfold envelopeStep
  rcases hu : unwrap c e with ⟨ev, res⟩
  rw [hu] at h
  obtain ⟨p, ch⟩ := r
  simp only at h
  subst h
  rfl

/-- The events and result of one iteration whose envelope does not unwrap. -/
theorem envelopeStep_panic (c : Codec) (db : DB) (m n i : Nat) (e : Bytes)
    (p : PanicVal) (h : (unwrap c e).2 = .panic p) :
    envelopeStep c db m n i e = ((unwrap c e).1, .panic p) := by
  unfold envelopeStep
  rcases hu : unwrap c e with ⟨ev, res⟩
  rw [hu] at h
  simp only at h
  subst h
  rfl

theorem txSeqs_append (a b : List Event) : txSeqs (a ++ b) = txSeqs a ++ txSeqs b := by
  simp [txSeqs]

theorem txInserts_append (a b : List Event) : txInserts (a ++ b) = txInserts a ++ txInserts b := by
  simp [txInserts]

theorem blockInserts_append (a b : List Event) :
    blockInserts (a ++ b) = blockInserts a ++ blockInserts b := by
  simp [blockInserts]

theorem envelopeStep_txSeqs_ok (c : Codec) (db : DB) (m n i : Nat) (e : Bytes)
    (h : reachesInsert c e = true) :
    txSeqs (envelopeStep c db m n i e).1 = [globalSequenceNumber m n i] := by
  obtain ⟨r, hr⟩ := (reachesInsert_iff c e).1 h
  rw [envelopeStep_ok c db m n i e r hr]
  simp only [txSeqs_append, txSeqs_logs _ (unwrap_logs c e), txSeqs_logs _ (parseData_logs c r.1),
    txSeqs_logs _ (warnOf_logs _)]
  simp [txSeqs, seqOf, txArgs]

theorem envelopeStep_txInserts_ok (c : Codec) (db : DB) (m n i : Nat) (e : Bytes)
    (h : reachesInsert c e = true) :
    (txInserts (envelopeStep c db m n i e).1).length = 1 := by
  obtain ⟨r, hr⟩ := (reachesInsert_iff c e).1 h
  rw [envelopeStep_ok c db m n i e r hr]
  simp only [txInserts_append, filter_isTxInsert_logs _ (unwrap_logs c e),
    filter_isTxInsert_logs _ (parseData_logs c r.1), filter_isTxInsert_logs _ (warnOf_logs _)]
  simp [txInserts, isTxInsert]

theorem envelopeStep_blockInserts (c : Codec) (db : DB) (m n i : Nat) (e : Bytes) :
    blockInserts (envelopeStep c db m n i e).1 = [] := by
  cases hu : (unwrap c e).2 with
  | ok r =>
    rw [envelopeStep_ok c db m n i e r hu]
    simp only [blockInserts_append, filter_isBlockInsert_logs _ (unwrap_logs c e),
      filter_isBlockInsert_logs _ (parseData_logs c r.1),
      filter_isBlockInsert_logs _ (warnOf_logs _)]
    simp [blockInserts, isBlockInsert]
  | panic p =>
    rw [envelopeStep_panic c db m n i e p hu]
    exact filter_isBlockInsert_logs _ (unwrap_logs c e)

theorem envelopeStep_not_reached (c : Codec) (db : DB) (m n i : Nat) (e : Bytes)
    (h : reachesInsert c e = false) :
    ∃ p, envelopeStep c db m n i e = ((unwrap c e).1, .panic p) := by
  unfold reachesInsert at h
  cases hu : (unwrap c e).2 with
  | ok r => rw [hu] at h; simp at h
  | panic p => exact ⟨p, envelopeStep_panic c db m n i e p hu⟩

theorem reached_cons (c : Codec) (e : Bytes) (rest : List Bytes) :
    reached c (e :: rest) = if reachesInsert c e = true then reached c rest + 1 else 0 := by
  unfold reached
  rw [List.takeWhile_cons]
  split <;> simp

theorem reached_of_all (c : Codec) (es : List Bytes) (h : ∀ e ∈ es, reachesInsert c e = true) :
    reached c es = es.length := by
  induction es with
  | nil => rfl
  | cons e rest ih =>
    rw [reached_cons, if_pos (h e (List.mem_cons_self _ _)),
      ih (fun x hx => h x (List.mem_cons_of_mem _ hx))]
    rfl

theorem envelopeLoop_cons_ok (c : Codec) (db : DB) (m n i : Nat) (e : Bytes) (rest : List Bytes)
    (t : Time) (r : Payload × ChannelHeader) (h : (unwrap c e).2 = .ok r) :
    envelopeLoop c db m n (e :: rest) i t =
      ((envelopeStep c db m n i e).1 ++ (envelopeLoop c db m n rest (i + 1) (txTimeOf r.2)).1,
       (envelopeLoop c db m n rest (i + 1) (txTimeOf r.2)).2) := by
  rw [envelopeLoop, envelopeStep_ok c db m n i e r h]

theorem envelopeLoop_cons_panic (c : Codec) (db : DB) (m n i : Nat) (e : Bytes)
    (rest : List Bytes) (t : Time) (p : PanicVal) (h : (unwrap c e).2 = .panic p) :
    envelopeLoop c db m n (e :: rest) i t = ((unwrap c e).1, .panic p) := by
  rw [envelopeLoop, envelopeStep_panic c db m n i e p h]

theorem envelopeLoop_txSeqs (c : Codec) (db : DB) (m n : Nat) :
    ∀ (es : List Bytes) (i : Nat) (t : Time),
      txSeqs (envelopeLoop c db m n es i t).1 =
        (List.range (reached c es)).map fun j => globalSequenceNumber m n (i + j)
  | [], i, t => by simp [envelopeLoop, reached, txSeqs]
  | e :: rest, i, t => by
    cases hu : (unwrap c e).2 with
    | panic p =>
      have hr : reachesInsert c e = false := by simp [reachesInsert, hu]
      rw [envelopeLoop_cons_panic c db m n i e rest t p hu, reached_cons, hr]
      simpa using txSeqs_logs _ (unwrap_logs c e)
    | ok r =>
      have hr : reachesInsert c e = true := by simp [reachesInsert, hu]
      rw [envelopeLoop_cons_ok c db m n i e rest t r hu, reached_cons, hr]
      simp only [txSeqs_append, envelopeStep_txSeqs_ok c db m n i e hr,
        envelopeLoop_txSeqs c db m n rest (i + 1) (txTimeOf r.2), if_true]
      rw [List.range_succ_eq_map]
      simp [List.map_map, Function.comp, Nat.add_assoc, Nat.add_comm 1]

theorem envelopeLoop_txInserts (c : Codec) (db : DB) (m n : Nat) :
    ∀ (es : List Bytes) (i : Nat) (t : Time),
      (txInserts (envelopeLoop c db m n es i t).1).length = reached c es
  | [], i, t => by simp [envelopeLoop, reached, txInserts]
  | e :: rest, i, t => by
    cases hu : (unwrap c e).2 with
    | panic p =>
      have hr : reachesInsert c e = false := by simp [reachesInsert, hu]
      rw [envelopeLoop_cons_panic c db m n i e rest t p hu, reached_cons, hr]
      simp [filter_isTxInsert_logs _ (unwrap_logs c e)]
    | ok r =>
      have hr : reachesInsert c e = true := by simp [reachesInsert, hu]
      rw [envelopeLoop_cons_ok c db m n i e rest t r hu, reached_cons, hr]
      simp only [txInserts_append, List.length_append, envelopeStep_txInserts_ok c db m n i e hr,
        envelopeLoop_txInserts c db m n rest (i + 1) (txTimeOf r.2), if_true]
      omega

theorem envelopeLoop_blockInserts (c : Codec) (db : DB) (m n : Nat) :
    ∀ (es : List Bytes) (i : Nat) (t : Time),
      blockInserts (envelopeLoop c db m n es i t).1 = []
  | [], i, t => by simp [envelopeLoop, blockInserts]
  | e :: rest, i, t => by
    cases hu : (unwrap c e).2 with
    | panic p =>
      rw [envelopeLoop_cons_panic c db m n i e rest t p hu]
      exact filter_isBlockInsert_logs _ (unwrap_logs c e)
    | ok r =>
      rw [envelopeLoop_cons_ok c db m n i e rest t r hu]
      simp only [blockInserts_append, envelopeStep_blockInserts,
        envelopeLoop_blockInserts c db m n rest (i + 1) (txTimeOf r.2), List.append_nil]

/-- The value of `txTime` after the loop when every envelope unwraps: the
time of the last envelope, or the initial value when there is none. -/
theorem envelopeLoop_result (c : Codec) (db : DB) (m n : Nat) :
    ∀ (es : List Bytes) (i : Nat) (t : Time), (∀ e ∈ es, reachesInsert c e = true) →
      (envelopeLoop c db m n es i t).2 =
        .ok (match es.getLast? with
          | none => t
          | some e =>
            match envelopeTime c e with
            | some t1 => t1
            | none => .zero)
  | [], i, t, _ => by simp [envelopeLoop]
  | e :: rest, i, t, hall => by
    obtain ⟨r, hu⟩ := (reachesInsert_iff c e).1 (hall e (List.mem_cons_self _ _))
    rw [envelopeLoop_cons_ok c db m n i e rest t r hu]
    simp only
    rw [envelopeLoop_result c db m n rest (i + 1) (txTimeOf r.2)
      (fun x hx => hall x (List.mem_cons_of_mem _ hx))]
    cases rest with
    | nil => simp [envelopeTime, hu]
    | cons e2 rest2 =>
      rw [List.getLast?_cons_cons]
      cases hl : (e2 :: rest2).getLast? with
      | none => simp at hl
      | some x => rfl

theorem globalSequenceNumber_eq (m n i : Nat) :
    globalSequenceNumber m n i = (n * m + i) % 2 ^ 64 := by
  unfold globalSequenceNumber
  rw [← Nat.add_mod]

/-- The call on a block with a header, a non-zero number and data, when both
statements prepare: the events around those of the loop. -/
theorem transactionResponse_prepared (c : Codec) (db : DB) (m : Nat) (header : BlockHeader)
    (data : BlockData) (h0 : header.number ≠ 0) (hp1 : db.prepare blockSQL = none)
    (hp2 : db.prepare txSQL = none) :
    transactionResponse c db m (some ⟨some header, some data⟩) =
      match envelopeLoop c db m header.number data.data 0 .zero with
      | (ev, .panic p) =>
        ([.prepare blockSQL, .prepare txSQL] ++ ev ++ [.close .stmTx, .close .stmtIns], .panic p)
      | (ev, .ok txTime) =>
        ([.prepare blockSQL, .prepare txSQL] ++ ev
          ++ [.exec .stmtIns (blockArgs header data.data.length txTime)]
          ++ warnOf (db.exec .stmtIns (blockArgs header data.data.length txTime))
          ++ [.close .stmTx, .close .stmtIns], .ok ()) := by
  simp only [transactionResponse, if_neg h0, hp1, hp2]

theorem transactionResponse_txSeqs (c : Codec) (db : DB) (m : Nat) (header : BlockHeader)
    (data : BlockData) (h0 : header.number ≠ 0) (hp1 : db.prepare blockSQL = none)
    (hp2 : db.prepare txSQL = none) :
    txSeqs (transactionResponse c db m (some ⟨some header, some data⟩)).1 =
      txSeqs (envelopeLoop c db m header.number data.data 0 .zero).1 := by
  rw [transactionResponse_prepared c db m header data h0 hp1 hp2]
  rcases envelopeLoop c db m header.number data.data 0 .zero with ⟨ev, t | p⟩
  · simp only [txSeqs_append, txSeqs_logs _ (warnOf_logs _)]
    simp [txSeqs, seqOf]
  · simp only [txSeqs_append]
    simp [txSeqs, seqOf]

theorem transactionResponse_txInserts (c : Codec) (db : DB) (m : Nat) (header : BlockHeader)
    (data : BlockData) (h0 : header.number ≠ 0) (hp1 : db.prepare blockSQL = none)
    (hp2 : db.prepare txSQL = none) :
    txInserts (transactionResponse c db m (some ⟨some header, some data⟩)).1 =
      txInserts (envelopeLoop c db m header.number data.data 0 .zero).1 := by
  rw [transactionResponse_prepared c db m header data h0 hp1 hp2]
  rcases envelopeLoop c db m header.number data.data 0 .zero with ⟨ev, t | p⟩
  · simp only [txInserts_append, filter_isTxInsert_logs _ (warnOf_logs _)]
    simp [txInserts, isTxInsert]
  · simp only [txInserts_append]
    simp [txInserts, isTxInsert]

/-- The block-summary insert and the result when every envelope unwraps. -/
theorem transactionResponse_blockInserts (c : Codec) (db : DB) (m : Nat) (header : BlockHeader)
    (data : BlockData) (h0 : header.number ≠ 0) (hp1 : db.prepare blockSQL = none)
    (hp2 : db.prepare txSQL = none) (hall : ∀ e ∈ data.data, reachesInsert c e = true) :
    blockInserts (transactionResponse c db m (some ⟨some header, some data⟩)).1 =
        [.exec .stmtIns (blockArgs header data.data.length (lastEnvelopeTime c data.data))] ∧
      (transactionResponse c db m (some ⟨some header, some data⟩)).2 = .ok () := by
  rw [transactionResponse_prepared c db m header data h0 hp1 hp2]
  have hres := envelopeLoop_result c db m header.number data.data 0 .zero hall
  have hbl := envelopeLoop_blockInserts c db m header.number data.data 0 .zero
  rcases hl : envelopeLoop c db m header.number data.data 0 .zero with ⟨ev, t | p⟩
  · rw [hl] at hres hbl
    simp only at hres hbl
    have ht : t = lastEnvelopeTime c data.data := by
      injection hres
    subst ht
    simp only [blockInserts_append, hbl, filter_isBlockInsert_logs _ (warnOf_logs _)]
    simp [blockInserts, isBlockInsert]
  · rw [hl] at hres
    simp at hres

theorem parseData_unmarshal_log (c : Codec) (p : Payload) (err : GoError)
    (h : (c.unmarshalConfigValue p.data).2 = some err) :
    ∃ y, (parseData c p).1 = [.log .error "Error proto unmarshal" [.err err]] ++ y ∧
      ∀ ev ∈ y, isLog ev = true := by
  have hl := parseData_logs c p
  unfold parseData at hl ⊢
  simp only [h] at hl ⊢
  exact ⟨_, rfl, fun ev hev => hl ev (List.mem_append_right _ hev)⟩

theorem parseData_parseUint_log (c : Codec) (p : Payload) (err : NumError)
    (h : (parseUint (c.unmarshalConfigValue p.data).1.value).2 = some err) :
    ∃ x, (parseData c p).1 = x ++ [.log .error "Error ParseUint:" [.numErr err]] := by
  unfold parseData
  simp only [h]
  exact ⟨_, rfl⟩

/-- The events of the iteration for the envelope at position `j` lie, as one
block, inside the events of the loop. -/
theorem envelopeLoop_step_events (c : Codec) (db : DB) (m n : Nat) :
    ∀ (es : List Bytes) (i : Nat) (t : Time) (j : Nat) (e : Bytes),
      (∀ x ∈ es, reachesInsert c x = true) → es[j]? = some e →
      ∃ a b, (envelopeLoop c db m n es i t).1 = a ++ (envelopeStep c db m n (i + j) e).1 ++ b
  | [], i, t, j, e, _, h => by simp at h
  | e0 :: rest, i, t, 0, e, hall, h => by
    obtain ⟨r, hu⟩ := (reachesInsert_iff c e0).1 (hall e0 (List.mem_cons_self _ _))
    simp only [List.getElem?_cons_zero, Option.some.injEq] at h
    subst h
    rw [envelopeLoop_cons_ok c db m n i e0 rest t r hu]
    exact ⟨[], (envelopeLoop c db m n rest (i + 1) (txTimeOf r.2)).1, by simp⟩
  | e0 :: rest, i, t, j + 1, e, hall, h => by
    obtain ⟨r, hu⟩ := (reachesInsert_iff c e0).1 (hall e0 (List.mem_cons_self _ _))
    simp only [List.getElem?_cons_succ] at h
    obtain ⟨a, b, hab⟩ := envelopeLoop_step_events c db m n rest (i + 1) (txTimeOf r.2) j e
      (fun x hx => hall x (List.mem_cons_of_mem _ hx)) h
    rw [envelopeLoop_cons_ok c db m n i e0 rest t r hu]
    refine ⟨(envelopeStep c db m n i e0).1 ++ a, b, ?_⟩
    simp only [hab, List.append_assoc]
    rw [show i + 1 + j = i + (j + 1) by omega]

/-- All events of the call when every envelope unwraps. -/
theorem transactionResponse_events (c : Codec) (db : DB) (m : Nat) (header : BlockHeader)
    (data : BlockData) (h0 : header.number ≠ 0) (hp1 : db.prepare blockSQL = none)
    (hp2 : db.prepare txSQL = none) (hall : ∀ e ∈ data.data, reachesInsert c e = true) :
    (transactionResponse c db m (some ⟨some header, some data⟩)).1 =
      ([.prepare blockSQL, .prepare txSQL]
        ++ (envelopeLoop c db m header.number data.data 0 .zero).1)
      ++ [.exec .stmtIns (blockArgs header data.data.length (lastEnvelopeTime c data.data))]
      ++ (warnOf (db.exec .stmtIns
            (blockArgs header data.data.length (lastEnvelopeTime c data.data)))
          ++ [.close .stmTx, .close .stmtIns]) := by
  rw [transactionResponse_prepared c db m header data h0 hp1 hp2]
  have hres := envelopeLoop_result c db m header.number data.data 0 .zero hall
  rcases hl : envelopeLoop c db m header.number data.data 0 .zero with ⟨ev, t | p⟩
  · rw [hl] at hres
    simp only at hres
    have ht : t = lastEnvelopeTime c data.data := by
      injection hres
    subst ht
    simp only [List.append_assoc]
  · rw [hl] at hres
    simp at hres

theorem hexDigit_mem (n : Nat) : hexDigit n ∈ "0123456789abcdef".toList := by
  unfold hexDigit
  rcases Nat.lt_or_ge n 16 with h | h
  · interval_cases n <;> decide
  · rw [List.getD_eq_default _ _ (by simpa using h)]
    decide

theorem encodeToString_length (src : Bytes) :
    (encodeToString src).length = 2 * src.length := by
  unfold encodeToString
  rw [String.length_mk]
  induction src with
  | nil => rfl
  | cons b rest ih =>
    simp only [List.flatMap_cons, List.length_append, List.length_cons, List.length_nil, ih]
    omega

theorem encodeToString_lowercase (src : Bytes) :
    ∀ ch ∈ (encodeToString src).toList, ch ∈ "0123456789abcdef".toList := by
  intro ch hch
  unfold encodeToString at hch
  simp only [String.toList, List.mem_flatMap, List.mem_cons, List.mem_singleton] at hch
  obtain ⟨b, _, hb⟩ := hch
  rcases hb with rfl | rfl | hb
  · exact hexDigit_mem _
  · exact hexDigit_mem _
  · simp at hb

/-! ## Sample clients -/

/-- A signer that always signs, with the signature `01`. -/
def okSigner : Signer := ⟨fun _ => .ok [1]⟩

/-- A deliver client on channel "ch" whose stream yields one status message
and then the error "EOF". -/
def sampleDeliver : DeliverClient :=
  ⟨"ch", okSigner, fun _ => none, [.status 200], .lib "EOF"⟩

/-- A deliver client on channel "ch" whose stream yields a block with number 1
holding an envelope that is not in wire format, a status message, and then the
error "EOF". -/
def badBlockDeliver : DeliverClient :=
  ⟨"ch", okSigner, fun _ => none, [.block (sampleBlock 1 [[1, 2]]), .status 200], .lib "EOF"⟩

/-- A broadcast client on channel "ch" whose stream accepts the send and
answers with the given status. -/
def sampleBroadcast (status : Status) : BroadcastClient :=
  ⟨0, "ch", okSigner, fun _ => none, .ok ⟨status⟩⟩

/-- A broadcast client on channel "ch" whose `Send` fails with "EOF". -/
def brokenBroadcast : BroadcastClient :=
  ⟨0, "ch", okSigner, fun _ => some (.lib "EOF"), .error (.lib "EOF")⟩

/-! ## The claims -/

/-- C1 (as stated, refuted): for block number 2^63, multiplier 2 and envelope
index 0 the transaction insert carries the sequence number 0, whereas
b*multiplier+i is 2^64. -/
theorem globalSequenceNumber_wraps :
    txSeqs (transactionResponse sampleCodec okDB 2 (sampleBlock (2 ^ 63) [envNumeric])).1 = [0] ∧
      txSeqs (transactionResponse sampleCodec okDB 2 (sampleBlock (2 ^ 63) [envNumeric])).1
        ≠ [2 ^ 63 * 2 + 0] := by
  decide

/-- C1 (amended): for a block with number b > 0, once both statements are
prepared, the transaction inserts are issued for the envelope indices
0, 1, ... in order (as many as the loop visits before a panic), and the insert
for index i carries (b*multiplier+i) mod 2^64, which is b*multiplier+i
whenever that value is below 2^64. -/
theorem transactionResponse_globalSequenceNumber (c : Codec) (db : DB) (m : Nat)
    (header : BlockHeader) (data : BlockData) (h0 : header.number ≠ 0)
    (hp1 : db.prepare blockSQL = none) (hp2 : db.prepare txSQL = none) :
    txSeqs (transactionResponse c db m (some ⟨some header, some data⟩)).1 =
        (List.range (reached c data.data)).map (fun i => (header.number * m + i) % 2 ^ 64) ∧
      ∀ i, i < reached c data.data → header.number * m + i < 2 ^ 64 →
        (txSeqs (transactionResponse c db m (some ⟨some header, some data⟩)).1)[i]?
          = some (header.number * m + i) := by
  have hseq : txSeqs (transactionResponse c db m (some ⟨some header, some data⟩)).1 =
      (List.range (reached c data.data)).map (fun i => (header.number * m + i) % 2 ^ 64) := by
    rw [transactionResponse_txSeqs c db m header data h0 hp1 hp2, envelopeLoop_txSeqs]
    apply List.map_congr_left
    intro i _
    rw [globalSequenceNumber_eq, Nat.zero_add]
  refine ⟨hseq, ?_⟩
  intro i hi hlt
  rw [hseq, List.getElem?_map, List.getElem?_range hi]
  show some ((header.number * m + i) % 2 ^ 64) = _
  rw [Nat.mod_eq_of_lt hlt]

theorem transactionResponse_globalSequenceNumber_witness :
    (1 : Nat) ≠ 0 ∧ okDB.prepare blockSQL = none ∧ okDB.prepare txSQL = none ∧
      txSeqs (transactionResponse sampleCodec okDB 10
        (some ⟨some ⟨1, [], [222, 173]⟩, some ⟨[envNumeric, envNonNumeric]⟩⟩)).1 =
        (List.range (reached sampleCodec [envNumeric, envNonNumeric])).map
          (fun i => (1 * 10 + i) % 2 ^ 64) :=
  ⟨by decide, rfl, rfl,
    (transactionResponse_globalSequenceNumber sampleCodec okDB 10 ⟨1, [], [222, 173]⟩
      ⟨[envNumeric, envNonNumeric]⟩ (by decide) rfl rfl).1⟩

/-- C2 (as stated, refuted): a block with number 1 and a single envelope whose
transaction identifier is not numeric has k = 1 and j = 1, yet one transaction
insert is issued, not k - j = 0. -/
theorem nonNumeric_envelope_is_inserted :
    [envNonNumeric].length = 1 ∧ failedCount sampleCodec [envNonNumeric] = 1 ∧
      (txInserts (transactionResponse sampleCodec okDB 10
        (sampleBlock 1 [envNonNumeric])).1).length = 1 ∧
      (txInserts (transactionResponse sampleCodec okDB 10
        (sampleBlock 1 [envNonNumeric])).1).length
        ≠ [envNonNumeric].length - failedCount sampleCodec [envNonNumeric] := by
  decide

/-- C2 (amended): for a block with number > 0 and k envelopes each of which
unwraps down to its channel header, once both statements are prepared,
transactionResponse issues exactly k transaction inserts, whatever the number
of envelopes whose data or transaction identifier fails to parse.  Such an
envelope is not skipped: the error is logged ("Error proto unmarshal",
"Error ParseUint:") and the transaction insert of that envelope follows the
log line, with no other transaction insert in between.  After the k
transaction inserts comes exactly one block-summary insert, whose
transactionCount is k, no transaction insert follows it, and the call returns
normally. -/
theorem transactionResponse_insert_counts (c : Codec) (db : DB) (m : Nat)
    (header : BlockHeader) (data : BlockData) (h0 : header.number ≠ 0)
    (hp1 : db.prepare blockSQL = none) (hp2 : db.prepare txSQL = none)
    (hall : ∀ e ∈ data.data, reachesInsert c e = true) :
    (txInserts (transactionResponse c db m (some ⟨some header, some data⟩)).1).length
        = data.data.length ∧
      (∃ number hash reserved time,
        blockInserts (transactionResponse c db m (some ⟨some header, some data⟩)).1 =
          [.exec .stmtIns [number, hash, .int data.data.length, reserved, time]]) ∧
      (transactionResponse c db m (some ⟨some header, some data⟩)).2 = .ok () ∧
      (∃ pre post number hash reserved time,
        (transactionResponse c db m (some ⟨some header, some data⟩)).1 =
          pre ++ [.exec .stmtIns [number, hash, .int data.data.length, reserved, time]] ++ post ∧
        (txInserts pre).length = data.data.length ∧ txInserts post = []) ∧
      (∀ i e payload channelHeader, data.data[i]? = some e →
        (unwrap c e).2 = .ok (payload, channelHeader) →
        (∃ a b, (transactionResponse c db m (some ⟨some header, some data⟩)).1 =
          a ++ [.exec .stmTx (txArgs m header.number i channelHeader)] ++ b) ∧
        (∀ err, (c.unmarshalConfigValue payload.data).2 = some err →
          ∃ a b d, (transactionResponse c db m (some ⟨some header, some data⟩)).1 =
            a ++ [.log .error "Error proto unmarshal" [.err err]] ++ b
              ++ [.exec .stmTx (txArgs m header.number i channelHeader)] ++ d ∧
            txInserts b = []) ∧
        (∀ err, (parseUint (c.unmarshalConfigValue payload.data).1.value).2 = some err →
          ∃ a b d, (transactionResponse c db m (some ⟨some header, some data⟩)).1 =
            a ++ [.log .error "Error ParseUint:" [.numErr err]] ++ b
              ++ [.exec .stmTx (txArgs m header.number i channelHeader)] ++ d ∧
            txInserts b = [])) := by
  have hev := transactionResponse_events c db m header data h0 hp1 hp2 hall
  refine ⟨?_, ?_, ?_, ?_, ?_⟩
  · rw [transactionResponse_txInserts c db m header data h0 hp1 hp2, envelopeLoop_txInserts,
      reached_of_all c data.data hall]
  · exact ⟨_, _, _, _, (transactionResponse_blockInserts c db m header data h0 hp1 hp2 hall).1⟩
  · exact (transactionResponse_blockInserts c db m header data h0 hp1 hp2 hall).2
  · refine ⟨_, _, _, _, _, _, hev, ?_, ?_⟩
    · rw [txInserts_append, List.length_append, envelopeLoop_txInserts,
        reached_of_all c data.data hall]
      simp [txInserts, isTxInsert]
    · rw [txInserts_append, filter_isTxInsert_logs _ (warnOf_logs _)]
      simp [txInserts, isTxInsert]
  · intro i e payload channelHeader hi hu
    obtain ⟨a0, b0, hab⟩ := envelopeLoop_step_events c db m header.number data.data 0 .zero i e
      hall hi
    rw [Nat.zero_add, envelopeStep_ok c db m header.number i e (payload, channelHeader) hu]
      at hab
    simp only at hab
    rw [hev, hab]
    refine ⟨?_, ?_, ?_⟩
    · exact ⟨[.prepare blockSQL, .prepare txSQL] ++ a0 ++ (unwrap c e).1 ++ (parseData c payload).1
          ++ [.log .debug "Seek block number:%d, payload:%d"
            [.uint64 header.number, .uint64 (parseData c payload).2]],
        warnOf (db.exec .stmTx (txArgs m header.number i channelHeader)) ++ b0
          ++ [.exec .stmtIns (blockArgs header data.data.length (lastEnvelopeTime c data.data))]
          ++ (warnOf (db.exec .stmtIns
                (blockArgs header data.data.length (lastEnvelopeTime c data.data)))
              ++ [.close .stmTx, .close .stmtIns]),
        by simp only [List.append_assoc]⟩
    · intro err herr
      obtain ⟨y, hy, hylog⟩ := parseData_unmarshal_log c payload err herr
      rw [hy]
      refine ⟨[.prepare blockSQL, .prepare txSQL] ++ a0 ++ (unwrap c e).1,
        y ++ [.log .debug "Seek block number:%d, payload:%d"
          [.uint64 header.number, .uint64 (parseData c payload).2]],
        warnOf (db.exec .stmTx (txArgs m header.number i channelHeader)) ++ b0
          ++ [.exec .stmtIns (blockArgs header data.data.length (lastEnvelopeTime c data.data))]
          ++ (warnOf (db.exec .stmtIns
                (blockArgs header data.data.length (lastEnvelopeTime c data.data)))
              ++ [.close .stmTx, .close .stmtIns]), ?_, ?_⟩
      · simp only [List.append_assoc]
      · rw [txInserts_append, filter_isTxInsert_logs _ hylog]
        simp [txInserts, isTxInsert]
    · intro err herr
      obtain ⟨x, hx⟩ := parseData_parseUint_log c payload err herr
      rw [hx]
      refine ⟨[.prepare blockSQL, .prepare txSQL] ++ a0 ++ (unwrap c e).1 ++ x,
        [.log .debug "Seek block number:%d, payload:%d"
          [.uint64 header.number, .uint64 (parseData c payload).2]],
        warnOf (db.exec .stmTx (txArgs m header.number i channelHeader)) ++ b0
          ++ [.exec .stmtIns (blockArgs header data.data.length (lastEnvelopeTime c data.data))]
          ++ (warnOf (db.exec .stmtIns
                (blockArgs header data.data.length (lastEnvelopeTime c data.data)))
              ++ [.close .stmTx, .close .stmtIns]), ?_, ?_⟩
      · simp only [List.append_assoc]
      · simp [txInserts, isTxInsert]

theorem transactionResponse_insert_counts_witness :
    (1 : Nat) ≠ 0 ∧ okDB.prepare blockSQL = none ∧ okDB.prepare txSQL = none ∧
      (∀ e ∈ [envNumeric, envNonNumeric], reachesInsert sampleCodec e = true) ∧
      failedCount sampleCodec [envNumeric, envNonNumeric] = 1 ∧
      (txInserts (transactionResponse sampleCodec okDB 10
        (some ⟨some ⟨1, [], [222, 173]⟩, some ⟨[envNumeric, envNonNumeric]⟩⟩)).1).length = 2 ∧
      (∃ a b d, (transactionResponse sampleCodec okDB 10
        (some ⟨some ⟨1, [], [222, 173]⟩, some ⟨[envNumeric, envNonNumeric]⟩⟩)).1 =
          a ++ [.log .error "Error ParseUint:" [.numErr .errSyntax]] ++ b
            ++ [.exec .stmTx (txArgs 10 1 1 ⟨some ⟨9, 0⟩, "", "t1"⟩)] ++ d ∧
          txInserts b = []) :=
  ⟨by decide, rfl, rfl, by decide, by decide,
    (transactionResponse_insert_counts sampleCodec okDB 10 ⟨1, [], [222, 173]⟩
      ⟨[envNumeric, envNonNumeric]⟩ (by decide) rfl rfl (by decide)).1,
    ((transactionResponse_insert_counts sampleCodec okDB 10 ⟨1, [], [222, 173]⟩
      ⟨[envNumeric, envNonNumeric]⟩ (by decide) rfl rfl (by decide)).2.2.2.2
        1 envNonNumeric ⟨some ⟨[26, 2, 8, 9, 42, 2, 116, 49], []⟩, [18, 2, 97, 98]⟩
        ⟨some ⟨9, 0⟩, "", "t1"⟩ rfl (by decide)).2.2 .errSyntax (by decide)⟩

/-- C3: for a block whose header number is 0, whatever its hashes and data,
transactionResponse causes no event at all (no Prepare, no insert of either
kind) and returns normally. -/
theorem transactionResponse_block_zero (c : Codec) (db : DB) (m : Nat)
    (previousHash dataHash : Bytes) (data : Option BlockData) :
    transactionResponse c db m (some ⟨some ⟨0, previousHash, dataHash⟩, data⟩) = ([], .ok ()) := by
  simp [transactionResponse]

theorem broadcast_sign_error (b : BroadcastClient) (transaction : Bytes) (e : GoError)
    (h : createSignedEnvelope .message b.chanID b.signer
      (.configValue ⟨0, transaction, ""⟩) 0 0 = .error e) :
    b.broadcast transaction = ([], some e) := by
  unfold BroadcastClient.broadcast
  rw [h]

theorem broadcast_send_error (b : BroadcastClient) (transaction : Bytes) (env : SignedEnvelope)
    (e : GoError)
    (h : createSignedEnvelope .message b.chanID b.signer
      (.configValue ⟨0, transaction, ""⟩) 0 0 = .ok env)
    (hs : b.send env = some e) :
    b.broadcast transaction =
      ([.lock, .goGetAck, .send env, .unlock], some (.withMessage e "could not send")) := by
  unfold BroadcastClient.broadcast
  rw [h]
  simp only [hs]

theorem broadcast_sent (b : BroadcastClient) (transaction : Bytes) (env : SignedEnvelope)
    (h : createSignedEnvelope .message b.chanID b.signer
      (.configValue ⟨0, transaction, ""⟩) 0 0 = .ok env)
    (hs : b.send env = none) :
    b.broadcast transaction =
      ([.lock, .goGetAck, .send env, .recvDone, .unlock], b.getAck) := by
  unfold BroadcastClient.broadcast
  rw [h]
  simp only [hs]

theorem getAck_eq_none_iff (b : BroadcastClient) :
    b.getAck = none ↔ ∃ msg, b.recv = .ok msg ∧ msg.status = statusSuccess := by
  unfold BroadcastClient.getAck
  cases hr : b.recv with
  | error e => simp
  | ok msg => by_cases hst : msg.status = statusSuccess <;> simp [hst]

/-- C4: broadcast returns nil exactly when the envelope was signed, the send
succeeded, the receive succeeded and the ack has status SUCCESS.  Along the
call: a signing error is returned as is; an error of the send is returned
wrapped with the message "could not send"; after a successful send an error of
the receive is returned as is, and an ack with another status yields the error
built from that status. -/
theorem broadcast_result (b : BroadcastClient) (transaction : Bytes) :
    ((b.broadcast transaction).2 = none ↔
        ∃ env, createSignedEnvelope .message b.chanID b.signer
            (.configValue ⟨0, transaction, ""⟩) 0 0 = .ok env ∧
          b.send env = none ∧ ∃ msg, b.recv = .ok msg ∧ msg.status = statusSuccess) ∧
      (∀ env msg, createSignedEnvelope .message b.chanID b.signer
            (.configValue ⟨0, transaction, ""⟩) 0 0 = .ok env →
          b.send env = none → b.recv = .ok msg → msg.status ≠ statusSuccess →
          (b.broadcast transaction).2
            = some (.errorfStatus "catch unexpected status: %v" msg.status)) ∧
      (∀ env e, createSignedEnvelope .message b.chanID b.signer
            (.configValue ⟨0, transaction, ""⟩) 0 0 = .ok env →
          b.send env = some e →
          (b.broadcast transaction).2 = some (.withMessage e "could not send")) ∧
      (∀ env e, createSignedEnvelope .message b.chanID b.signer
            (.configValue ⟨0, transaction, ""⟩) 0 0 = .ok env →
          b.send env = none → b.recv = .error e → (b.broadcast transaction).2 = some e) ∧
      (∀ e, createSignedEnvelope .message b.chanID b.signer
            (.configValue ⟨0, transaction, ""⟩) 0 0 = .error e →
          (b.broadcast transaction).2 = some e) := by
  refine ⟨?_, ?_, ?_, ?_, ?_⟩
  · cases hc : createSignedEnvelope .message b.chanID b.signer
        (.configValue ⟨0, transaction, ""⟩) 0 0 with
    | error e0 => simp [broadcast_sign_error b transaction e0 hc]
    | ok env0 =>
      cases hs : b.send env0 with
      | some e1 =>
        rw [broadcast_send_error b transaction env0 e1 hc hs]
        simp only [reduceCtorEq, false_iff, not_exists, not_and]
        intro env henv hsend
        cases henv
        rw [hs] at hsend
        cases hsend
      | none =>
        rw [broadcast_sent b transaction env0 hc hs]
        simp only [getAck_eq_none_iff]
        constructor
        · intro h
          exact ⟨env0, rfl, hs, h⟩
        · rintro ⟨_, _, _, h⟩
          exact h
  · intro env msg hc hs hr hst
    rw [broadcast_sent b transaction env hc hs]
    simp [BroadcastClient.getAck, hr, hst]
  · intro env e hc hs
    rw [broadcast_send_error b transaction env e hc hs]
  · intro env e hc hs hr
    rw [broadcast_sent b transaction env hc hs]
    simp [BroadcastClient.getAck, hr]
  · intro e hc
    rw [broadcast_sign_error b transaction e hc]

theorem broadcast_result_witness :
    ((sampleBroadcast 200).broadcast [49]).2 = none ∧
      ((sampleBroadcast 500).broadcast [49]).2
        = some (.errorfStatus "catch unexpected status: %v" 500) ∧
      (brokenBroadcast.broadcast [49]).2 = some (.withMessage (.lib "EOF") "could not send") :=
  ⟨(broadcast_result (sampleBroadcast 200) [49]).1.2 ⟨_, rfl, rfl, _, rfl, rfl⟩,
    (broadcast_result (sampleBroadcast 500) [49]).2.1 _ _ rfl rfl rfl (by decide),
    (broadcast_result brokenBroadcast [49]).2.2.1 _ _ rfl rfl⟩

theorem sendSeek_content (d : DeliverClient) (start stop : SeekPosition) :
    ∀ env ∈ (d.sendSeek (d.seekHelper d.chanID start stop)).1,
      env.content = ⟨.deliverSeekInfo, d.chanID, .seekInfo ⟨start, stop, .blockUntilReady⟩, 0, 0⟩ := by
  intro env
  unfold DeliverClient.seekHelper createSignedEnvelope
  cases h : d.signer.signContent
      ⟨.deliverSeekInfo, d.chanID, .seekInfo ⟨start, stop, .blockUntilReady⟩, 0, 0⟩ with
  | error e => simp [DeliverClient.sendSeek, h]
  | ok sig =>
    simp only [DeliverClient.sendSeek, h, List.mem_singleton]
    rintro rfl
    rfl

theorem sendSeek_length (d : DeliverClient) (start stop : SeekPosition)
    (hs : ∀ content, ∃ sig, d.signer.signContent content = .ok sig) :
    (d.sendSeek (d.seekHelper d.chanID start stop)).1.length = 1 := by
  obtain ⟨sig, hsig⟩ :=
    hs ⟨.deliverSeekInfo, d.chanID, .seekInfo ⟨start, stop, .blockUntilReady⟩, 0, 0⟩
  unfold DeliverClient.seekHelper createSignedEnvelope
  simp only [hsig]
  rfl

/-- C5: every envelope that seekOldest, seekNewest and seekSpecified(n) hand to
Send is a DELIVER_SEEK_INFO envelope addressed to the channel of the client
whose seek request has behavior BLOCK_UNTIL_READY and, respectively,
start = Oldest and stop = Specified(MaxUint64), start = Newest and
stop = Specified(MaxUint64), start = stop = Specified(n); when the signer
signs, each of the three hands exactly one envelope to Send. -/
theorem seek_requests (d : DeliverClient) (n : Nat) :
    (∀ env ∈ d.seekOldest.1, env.content =
        ⟨.deliverSeekInfo, d.chanID,
          .seekInfo ⟨.oldest, .specified (2 ^ 64 - 1), .blockUntilReady⟩, 0, 0⟩) ∧
      (∀ env ∈ d.seekNewest.1, env.content =
        ⟨.deliverSeekInfo, d.chanID,
          .seekInfo ⟨.newest, .specified (2 ^ 64 - 1), .blockUntilReady⟩, 0, 0⟩) ∧
      (∀ env ∈ (d.seekSpecified n).1, env.content =
        ⟨.deliverSeekInfo, d.chanID,
          .seekInfo ⟨.specified n, .specified n, .blockUntilReady⟩, 0, 0⟩) ∧
      ((∀ content, ∃ sig, d.signer.signContent content = .ok sig) →
        d.seekOldest.1.length = 1 ∧ d.seekNewest.1.length = 1 ∧
          (d.seekSpecified n).1.length = 1) :=
  ⟨sendSeek_content d oldest maxStop, sendSeek_content d newest maxStop,
    sendSeek_content d (.specified n) (.specified n),
    fun hs => ⟨sendSeek_length d oldest maxStop hs, sendSeek_length d newest maxStop hs,
      sendSeek_length d (.specified n) (.specified n) hs⟩⟩

theorem seek_requests_witness :
    (sampleDeliver.seekSpecified 5).1 =
      [⟨⟨.deliverSeekInfo, "ch", .seekInfo ⟨.specified 5, .specified 5, .blockUntilReady⟩, 0, 0⟩,
        [1]⟩] ∧
      sampleDeliver.seekOldest.1.length = 1 ∧
      ∀ env ∈ sampleDeliver.seekOldest.1, env.content =
        ⟨.deliverSeekInfo, "ch",
          .seekInfo ⟨.oldest, .specified (2 ^ 64 - 1), .blockUntilReady⟩, 0, 0⟩ :=
  ⟨rfl, ((seek_requests sampleDeliver 5).2.2.2 (fun _ => ⟨[1], rfl⟩)).1,
    (seek_requests sampleDeliver 5).1⟩

/-- C6 (as stated, refuted): in a block with number 1 whose first envelope
decodes (timestamp 5) and whose second and last envelope has a non-numeric
transaction identifier (timestamp 9), the block-summary insert carries the
timestamp 9, whereas the last successfully decoded transaction has timestamp
5. -/
theorem block_summary_time_of_failed_envelope :
    blockInserts (transactionResponse sampleCodec okDB 10
        (sampleBlock 1 [envNumeric, envNonNumeric])).1 =
        [.exec .stmtIns [.uint64 1, .str "dead", .int 2, .int 0, .time (.unix 9 0)]] ∧
      failsToDecode sampleCodec envNumeric = false ∧
      failsToDecode sampleCodec envNonNumeric = true ∧
      lastDecodedTime sampleCodec [envNumeric, envNonNumeric] = .unix 5 0 ∧
      blockInserts (transactionResponse sampleCodec okDB 10
        (sampleBlock 1 [envNumeric, envNonNumeric])).1 ≠
        [.exec .stmtIns [.uint64 1, .str "dead", .int 2, .int 0,
          .time (lastDecodedTime sampleCodec [envNumeric, envNonNumeric])]] := by
  decide

/-- C6 (amended): for a block with number > 0 whose envelopes all unwrap down
to their channel header, once both statements are prepared, the single
block-summary insert has number equal to the block number, dataHashHex equal to
the lowercase hex encoding of the data hash (two digits per byte), the declared
envelope count as transactionCount, and as timestamp the one of the last
envelope in envelope order, whether or not its data or transaction identifier
parsed (the zero timestamp when the block has no envelopes). -/
theorem transactionResponse_block_summary (c : Codec) (db : DB) (m : Nat)
    (header : BlockHeader) (data : BlockData) (h0 : header.number ≠ 0)
    (hp1 : db.prepare blockSQL = none) (hp2 : db.prepare txSQL = none)
    (hall : ∀ e ∈ data.data, reachesInsert c e = true) :
    blockInserts (transactionResponse c db m (some ⟨some header, some data⟩)).1 =
        [.exec .stmtIns [.uint64 header.number, .str (encodeToString header.dataHash),
          .int data.data.length, .int 0, .time (lastEnvelopeTime c data.data)]] ∧
      (encodeToString header.dataHash).length = 2 * header.dataHash.length ∧
      (∀ ch ∈ (encodeToString header.dataHash).toList, ch ∈ "0123456789abcdef".toList) ∧
      (∀ e ∈ data.data.getLast?, envelopeTime c e = some (lastEnvelopeTime c data.data)) ∧
      (data.data = [] → lastEnvelopeTime c data.data = .zero) := by
  refine ⟨(transactionResponse_blockInserts c db m header data h0 hp1 hp2 hall).1,
    encodeToString_length _, encodeToString_lowercase _, ?_, ?_⟩
  · intro e he
    have hmem : e ∈ data.data := List.mem_of_getLast?_eq_some (Option.mem_def.1 he)
    obtain ⟨r, hr⟩ := (reachesInsert_iff c e).1 (hall e hmem)
    unfold lastEnvelopeTime
    rw [Option.mem_def.1 he]
    simp [envelopeTime, hr]
  · intro hnil
    rw [hnil]
    rfl

theorem transactionResponse_block_summary_witness :
    (1 : Nat) ≠ 0 ∧ okDB.prepare blockSQL = none ∧ okDB.prepare txSQL = none ∧
      (∀ e ∈ [envNumeric, envNonNumeric], reachesInsert sampleCodec e = true) ∧
      blockInserts (transactionResponse sampleCodec okDB 10
        (some ⟨some ⟨1, [], [222, 173]⟩, some ⟨[envNumeric, envNonNumeric]⟩⟩)).1 =
        [.exec .stmtIns [.uint64 1, .str (encodeToString [222, 173]),
          .int 2, .int 0, .time (lastEnvelopeTime sampleCodec [envNumeric, envNonNumeric])]] :=
  ⟨by decide, rfl, rfl, by decide,
    (transactionResponse_block_summary sampleCodec okDB 10 ⟨1, [], [222, 173]⟩
      ⟨[envNumeric, envNonNumeric]⟩ (by decide) rfl rfl (by decide)).1⟩

/-- The loop on a stream whose first block makes `transactionResponse` panic
at once: the goroutine is started, its nil dereference ends the process, and
the status message behind it is never handled. -/
theorem readUntilClose_goroutine_panic :
    badBlockDeliver.readUntilClose sampleCodec okDB 10 (fun _ => 0) =
      ([.goTransactionResponse (sampleBlock 1 [[1, 2]])], .processDown .nilDeref) := by
  decide

/-- C9 (code at the failing input): when Send reports an error, the calling
goroutine of broadcast locks, starts the goroutine of getAck, sends and unlocks
without ever receiving from done, so the receive it launched is not joined
before the mutex is released; when Send succeeds the receive from done comes
before the unlock. -/
theorem broadcast_send_error_skips_join (b : BroadcastClient) (transaction : Bytes)
    (env : SignedEnvelope)
    (hc : createSignedEnvelope .message b.chanID b.signer
      (.configValue ⟨0, transaction, ""⟩) 0 0 = .ok env) :
    (∀ e, b.send env = some e →
        (b.broadcast transaction).1 = [.lock, .goGetAck, .send env, .unlock] ∧
          Step.recvDone ∉ (b.broadcast transaction).1) ∧
      (b.send env = none →
        (b.broadcast transaction).1 = [.lock, .goGetAck, .send env, .recvDone, .unlock]) := by
  constructor
  · intro e hs
    rw [broadcast_send_error b transaction env e hc hs]
    simp
  · intro hs
    rw [broadcast_sent b transaction env hc hs]

theorem broadcast_send_error_skips_join_witness :
    (brokenBroadcast.broadcast [49]).1 =
      [.lock, .goGetAck,
        .send ⟨⟨.message, "ch", .configValue ⟨0, [49], ""⟩, 0, 0⟩, [1]⟩, .unlock] ∧
      Step.recvDone ∉ (brokenBroadcast.broadcast [49]).1 :=
  (broadcast_send_error_skips_join brokenBroadcast [49]
    ⟨⟨.message, "ch", .configValue ⟨0, [49], ""⟩, 0, 0⟩, [1]⟩ rfl).1 (.lib "EOF") rfl

/-- C10: the sequence number is injective on in-range positions: for indices
below the multiplier and values b*multiplier+i below 2^64, equal sequence
numbers come from the same block number and the same index. -/
theorem globalSequenceNumber_injective (m b1 b2 i1 i2 : Nat) (h1 : i1 < m) (h2 : i2 < m)
    (hb1 : b1 * m + i1 < 2 ^ 64) (hb2 : b2 * m + i2 < 2 ^ 64)
    (heq : globalSequenceNumber m b1 i1 = globalSequenceNumber m b2 i2) :
    b1 = b2 ∧ i1 = i2 := by
  rw [globalSequenceNumber_eq, globalSequenceNumber_eq, Nat.mod_eq_of_lt hb1,
    Nat.mod_eq_of_lt hb2] at heq
  have hm : 0 < m := by omega
  have hd1 : (b1 * m + i1) / m = b1 := by
    rw [Nat.add_comm, Nat.add_mul_div_right _ _ hm, Nat.div_eq_of_lt h1, Nat.zero_add]
  have hd2 : (b2 * m + i2) / m = b2 := by
    rw [Nat.add_comm, Nat.add_mul_div_right _ _ hm, Nat.div_eq_of_lt h2, Nat.zero_add]
  have hb : b1 = b2 := by rw [← hd1, ← hd2, heq]
  subst hb
  exact ⟨rfl, by omega⟩

theorem globalSequenceNumber_injective_witness :
    (3 : Nat) < 10 ∧ (3 : Nat) < 10 ∧ 5 * 10 + 3 < 2 ^ 64 ∧
      globalSequenceNumber 10 5 3 = globalSequenceNumber 10 5 3 ∧ (5 = 5 ∧ 3 = 3) :=
  ⟨by decide, by decide, by decide, rfl,
    globalSequenceNumber_injective 10 5 5 3 3 (by decide) (by decide) (by decide) (by decide) rfl⟩

end Ote
